import Mathlib

/-!
Verification of the surveillance/incident-response platform against its
specification.  The Rust sources are shallowly embedded: machine integers
become `Nat` (with explicit `% 2^w` where the source casts), `Vec<u8>`
becomes `List Nat`, `f64` fields that the code only moves through
`to_be_bytes`/`from_be_bytes` become their 64-bit patterns (`Nat < 2^64`),
and `f64` fields on which the code does real arithmetic become `ℝ`.
Fallible Rust code returns a three-outcome result (`Ok`, `Err`, or a
panic from slice indexing / `unwrap`).
-/

/-! ## Byte-level helpers (big-endian integer encoding, as in
`u16::to_be_bytes`, `f64::to_be_bytes`, `u16::from_be_bytes`, ...). -/

/-- Big-endian byte list of the low `k` bytes of `n`
(`uK::to_be_bytes` emits exactly this for an in-range `n`). -/
def natToBytesBE : Nat → Nat → List Nat
  | 0, _ => []
  | k + 1, n => n / 256 ^ k % 256 :: natToBytesBE k n

/-- Big-endian reassembly of a byte list (`uK::from_be_bytes`). -/
def bytesToNatBE (l : List Nat) : Nat :=
  l.foldl (fun acc b => acc * 256 + b) 0

theorem natToBytesBE_length (k n : Nat) : (natToBytesBE k n).length = k := by
  induction k generalizing n with
  | zero => rfl
  | succ k ih => simp [natToBytesBE, ih]

theorem foldl_byte_shift (l : List Nat) (a : Nat) :
    l.foldl (fun acc b => acc * 256 + b) a =
      a * 256 ^ l.length + l.foldl (fun acc b => acc * 256 + b) 0 := by
  induction l generalizing a with
  | nil => simp
  | cons b t ih =>
    simp only [List.foldl_cons, List.length_cons]
    rw [ih (a * 256 + b), ih (0 * 256 + b)]
    ring

theorem bytesToNatBE_natToBytesBE (k n : Nat) :
    bytesToNatBE (natToBytesBE k n) = n % 256 ^ k := by
  induction k with
  | zero => simp [natToBytesBE, bytesToNatBE, Nat.mod_one]
  | succ k ih =>
    unfold natToBytesBE bytesToNatBE
    rw [List.foldl_cons, foldl_byte_shift, natToBytesBE_length]
    unfold bytesToNatBE at ih
    rw [ih]
    have h : 256 ^ (k + 1) = 256 ^ k * 256 := by ring
    rw [h, Nat.mod_mul]
    ring

theorem bytesToNatBE_natToBytesBE_of_lt {k n : Nat} (h : n < 256 ^ k) :
    bytesToNatBE (natToBytesBE k n) = n := by
  rw [bytesToNatBE_natToBytesBE, Nat.mod_eq_of_lt h]

/-! ## UTF-8 validity (the check performed by `std::str::from_utf8`,
RFC 3629 table). -/

/-- A UTF-8 continuation byte (`0x80 ..= 0xBF`). -/
def utf8Cont (b : Nat) : Bool :=
  0x80 ≤ b && b ≤ 0xBF

/-- Validity of a byte sequence as UTF-8, exactly the acceptance condition
of `std::str::from_utf8` (RFC 3629: no overlongs, no surrogates,
no code points past `U+10FFFF`). -/
def validUtf8 : List Nat → Bool
  | [] => true
  | b :: rest =>
    if b ≤ 0x7F then validUtf8 rest
    else if 0xC2 ≤ b && b ≤ 0xDF then
      match rest with
      | c :: r2 => utf8Cont c && validUtf8 r2
      | [] => false
    else if b = 0xE0 then
      match rest with
      | c :: d :: r2 => (0xA0 ≤ c && c ≤ 0xBF) && utf8Cont d && validUtf8 r2
      | _ => false
    else if (0xE1 ≤ b && b ≤ 0xEC) || b = 0xEE || b = 0xEF then
      match rest with
      | c :: d :: r2 => utf8Cont c && utf8Cont d && validUtf8 r2
      | _ => false
    else if b = 0xED then
      match rest with
      | c :: d :: r2 => (0x80 ≤ c && c ≤ 0x9F) && utf8Cont d && validUtf8 r2
      | _ => false
    else if b = 0xF0 then
      match rest with
      | c :: d :: e :: r2 =>
          (0x90 ≤ c && c ≤ 0xBF) && utf8Cont d && utf8Cont e && validUtf8 r2
      | _ => false
    else if 0xF1 ≤ b && b ≤ 0xF3 then
      match rest with
      | c :: d :: e :: r2 => utf8Cont c && utf8Cont d && utf8Cont e && validUtf8 r2
      | _ => false
    else if b = 0xF4 then
      match rest with
      | c :: d :: e :: r2 =>
          (0x80 ≤ c && c ≤ 0x8F) && utf8Cont d && utf8Cont e && validUtf8 r2
      | _ => false
    else false

/-! ## Outcomes of fallible Rust code.

`ok`/`err` are `Result::Ok`/`Result::Err` (the claims never inspect the
error payload, so `err` carries none); `panic` models a Rust panic
(out-of-bounds slice indexing, `unwrap` on `Err`).  `bind` propagates
`err` like the `?` operator and `panic` like unwinding. -/

inductive RustResult (α : Type) : Type
  | ok (val : α)
  | err
  | panic
deriving DecidableEq

instance : Monad RustResult where
  pure := RustResult.ok
  bind := fun x f =>
    match x with
    | RustResult.ok a => f a
    | RustResult.err => RustResult.err
    | RustResult.panic => RustResult.panic

/-- Indexing `bytes[i]` (equivalently the head of slice `bytes[i..i+1]`):
yields the byte, or a panic when out of bounds. -/
def byteAt (b : List Nat) (i : Nat) : RustResult Nat :=
  match b.get? i with
  | some v => RustResult.ok v
  | none => RustResult.panic

/-! ## `src/subscribe_message.rs` -/

/-- `SubscribeMessage`: packet type (8 for SUBSCRIBE), flags (2), a `u16`
packet identifier, and the `(topic, qos)` filters.  Rust's `String` is
embedded as its UTF-8 byte list. -/
structure SubscribeMessage where
  packet_type : Nat
  flags : Nat
  packet_identifier : Nat
  topic_filters : List (List Nat × Nat)
deriving DecidableEq

/-- `SubscribeMessage::new`. -/
def SubscribeMessage.new (packet_id : Nat) (topics : List (List Nat × Nat)) :
    SubscribeMessage :=
  { packet_type := 8, flags := 2, packet_identifier := packet_id,
    topic_filters := topics }

/-- `SubscribeMessage::to_bytes`: type byte, flags byte, `u16` packet id,
`u16` filter count (`len() as u16`, hence `% 2^16`), then for every filter
its `u16` byte length (`len() as u16`), its bytes, and its QoS byte. -/
def SubscribeMessage.to_bytes (m : SubscribeMessage) : List Nat :=
  [m.packet_type] ++ [m.flags] ++ natToBytesBE 2 m.packet_identifier ++
    natToBytesBE 2 (m.topic_filters.length % 65536) ++
    m.topic_filters.foldr
      (fun t acc => natToBytesBE 2 (t.1.length % 65536) ++ t.1 ++ [t.2] ++ acc) []

/-- `subs_msg_from_bytes`.  Reads the type and flags bytes, the `u16`
packet id, the `u16` topic-vector length, and then — the source's
per-filter loop is commented out — exactly one filter: a `u16` string
length, that many string bytes (`from_utf8(...).unwrap()` panics unless
they are valid UTF-8), and one QoS byte.  Every slice index panics when
out of bounds; the topic-vector length is read but never used. -/
def subs_msg_from_bytes (b : List Nat) : RustResult SubscribeMessage := do
  let tipo ← byteAt b 0
  let flags ← byteAt b 1
  let pid_hi ← byteAt b 2
  let pid_lo ← byteAt b 3
  let packet_id := bytesToNatBE [pid_hi, pid_lo]
  let tvl_hi ← byteAt b 4
  let tvl_lo ← byteAt b 5
  let _topics_vec_len := bytesToNatBE [tvl_hi, tvl_lo]
  let len_hi ← byteAt b 6
  let len_lo ← byteAt b 7
  let elem_string_len := bytesToNatBE [len_hi, len_lo]
  if 8 + elem_string_len ≤ b.length then
    let string_leida := (b.drop 8).take elem_string_len
    if validUtf8 string_leida then
      let elem_qos ← byteAt b (8 + elem_string_len)
      pure { packet_type := tipo, flags := flags, packet_identifier := packet_id,
             topic_filters := [(string_leida, elem_qos)] }
    else
      RustResult.panic
  else
    RustResult.panic

example :
    subs_msg_from_bytes (SubscribeMessage.new 1 [([97], 0)]).to_bytes =
      RustResult.ok (SubscribeMessage.new 1 [([97], 0)]) := by decide

/-! ## `src/mqtt/client/mqtt_client_writer.rs` -/

/-- `MQTTClientWriter`, reduced to the packet-id minting state: the source
struct also holds the TCP stream and the retransmitter, which no claim
touches.  `available_packet_id` is the `u16` counter, so its value is kept
`< 2^16`. -/
structure MQTTClientWriter where
  available_packet_id : Nat

/-- `MQTTClientWriter::new`: the counter starts at 0. -/
def MQTTClientWriter.new : MQTTClientWriter :=
  { available_packet_id := 0 }

/-- `MQTTClientWriter::generate_packet_id`: `self.available_packet_id += 1`
followed by returning the updated value.  The `+=` is on a `u16`, so the
increment wraps modulo `2^16` (release-mode semantics). -/
def MQTTClientWriter.generate_packet_id (w : MQTTClientWriter) :
    Nat × MQTTClientWriter :=
  let v := (w.available_packet_id + 1) % 65536
  (v, { available_packet_id := v })

/-- Writer state after `n` calls to `generate_packet_id` on a fresh writer. -/
def packetIdAfter : Nat → MQTTClientWriter
  | 0 => MQTTClientWriter.new
  | n + 1 => (packetIdAfter n).generate_packet_id.2

/-- The id returned by the `n`-th call (calls numbered from 1):
`generate_packet_id` returns exactly the updated counter value. -/
def nthPacketId (n : Nat) : Nat :=
  (packetIdAfter n).available_packet_id

theorem nthPacketId_state (n : Nat) :
    nthPacketId n = (packetIdAfter n).available_packet_id := rfl

theorem packetIdAfter_counter (n : Nat) :
    (packetIdAfter n).available_packet_id = n % 65536 := by
  induction n with
  | zero => rfl
  | succ n ih =>
    simp only [packetIdAfter, MQTTClientWriter.generate_packet_id, ih]
    omega

/-! ## `src/apps/sist_camaras/camera.rs` and the camera state -/

/-- Modelled from the spec: the module `sist_camaras::camera_state` is not
among the provided sources.  The payload layout section fixes the two
states and their wire bytes: `state(1; 0=SavingMode, 1=Active)`. -/
inductive CameraState : Type
  | SavingMode
  | Active
deriving DecidableEq

/-- Modelled from the spec: `CameraState` serialization, `0=SavingMode`,
`1=Active`. -/
def CameraState.to_byte : CameraState → List Nat
  | CameraState.SavingMode => [0]
  | CameraState.Active => [1]

/-- Modelled from the spec: `CameraState` deserialization of the one-byte
array, `1` decoding to `Active` and `0` to `SavingMode`. -/
def CameraState.from_byte (b : Nat) : CameraState :=
  if b = 1 then CameraState.Active else CameraState.SavingMode

/-- `Camera`.  The coordinate type is a parameter: the serialization code
only moves the `f64` coordinates through `to_be_bytes`/`from_be_bytes`, so
there `α` is the 64-bit pattern (`Nat`), while the geometric code computes
with them, so there `α` is `ℝ`. -/
structure Camera (α : Type) where
  id : Nat
  latitude : α
  longitude : α
  state : CameraState
  range : Nat
  border_cameras : List Nat
  deleted : Bool
  incs_being_managed : List Nat
deriving DecidableEq

/-- `Camera::new`: `SavingMode`, no border cameras, not deleted, no managed
incidents. -/
def Camera.new {α : Type} (id : Nat) (latitude longitude : α) (range : Nat) :
    Camera α :=
  { id := id, latitude := latitude, longitude := longitude,
    state := CameraState.SavingMode, range := range, border_cameras := [],
    deleted := false, incs_being_managed := [] }

/-- `Camera::set_state_to`. -/
def Camera.set_state_to {α : Type} (c : Camera α) (new_state : CameraState) :
    Camera α :=
  { c with state := new_state }

/-- `Camera::append_to_incs_being_managed`: push the incident id and switch
to `Active` unless already there. -/
def Camera.append_to_incs_being_managed {α : Type} (c : Camera α)
    (inc_id : Nat) : Camera α :=
  let c' := { c with incs_being_managed := c.incs_being_managed ++ [inc_id] }
  if c'.state ≠ CameraState.Active then c'.set_state_to CameraState.Active
  else c'

/-- `Camera::remove_from_incs_being_managed`: drop the first occurrence of
the incident id (`position` + `Vec::remove`, i.e. `List.erase`), and when
the list becomes empty switch to `SavingMode`. -/
def Camera.remove_from_incs_being_managed {α : Type} (c : Camera α)
    (inc_id : Nat) : Camera α :=
  if c.incs_being_managed.contains inc_id then
    let l' := c.incs_being_managed.erase inc_id
    if l'.isEmpty then
      ({ c with incs_being_managed := l' }).set_state_to CameraState.SavingMode
    else { c with incs_being_managed := l' }
  else c

/-- `Camera::to_bytes`: id, latitude and longitude patterns big-endian,
state byte, range, border count (`len() as u8`, hence `% 256`), border ids,
deleted flag.  The managed-incidents list is not serialized. -/
def Camera.to_bytes (c : Camera Nat) : List Nat :=
  [c.id] ++ natToBytesBE 8 c.latitude ++ natToBytesBE 8 c.longitude ++
    c.state.to_byte ++ [c.range] ++ [c.border_cameras.length % 256] ++
    c.border_cameras ++ [if c.deleted then 1 else 0]

/-- The loop `for i in 0..count { bytes[start + i] }`: `some` of the read
bytes, or `none` when some index is out of bounds (a Rust panic). -/
def readBytesAt (b : List Nat) (start : Nat) : Nat → Option (List Nat)
  | 0 => some []
  | count + 1 => do
    let x ← b.get? start
    let rest ← readBytesAt b (start + 1) count
    some (x :: rest)

/-- `Camera::from_bytes`: reads the fixed 20-byte prefix, then
`border_cameras_len` border ids, then the deleted flag; every index access
panics (`none`) when out of bounds.  The reconstructed camera always has an
empty managed-incidents list. -/
def Camera.from_bytes (bytes : List Nat) : Option (Camera Nat) := do
  let id ← bytes.get? 0
  let latBytes ← readBytesAt bytes 1 8
  let lonBytes ← readBytesAt bytes 9 8
  let stByte ← bytes.get? 17
  let range ← bytes.get? 18
  let border_cameras_len ← bytes.get? 19
  let border_cameras ← readBytesAt bytes 20 border_cameras_len
  let delByte ← bytes.get? (20 + border_cameras_len)
  some { id := id, latitude := bytesToNatBE latBytes,
         longitude := bytesToNatBE lonBytes,
         state := CameraState.from_byte stByte, range := range,
         border_cameras := border_cameras, deleted := delByte == 1,
         incs_being_managed := [] }

example :
    Camera.from_bytes (Camera.to_bytes (Camera.new 12 3 4 5)) =
      some (Camera.new 12 3 4 5) := by decide

example :
    Camera.from_bytes
        (Camera.to_bytes { (Camera.new 12 3 4 5 : Camera Nat) with border_cameras := [6, 2], deleted := true }) =
      some { (Camera.new 12 3 4 5 : Camera Nat) with border_cameras := [6, 2], deleted := true } := by decide

/-! ### Positional evaluation lemmas for the index-based decoders -/

theorem get?_append_skip (l1 l2 : List Nat) (s : Nat) :
    (l1 ++ l2).get? (l1.length + s) = l2.get? s := by
  induction l1 with
  | nil => simp
  | cons x t ih =>
    have h : t.length + 1 + s = t.length + s + 1 := by omega
    simp only [List.cons_append, List.length_cons, h, List.get?_cons_succ]
    exact ih

theorem readBytesAt_cons_succ (x : Nat) (l : List Nat) (s c : Nat) :
    readBytesAt (x :: l) (s + 1) c = readBytesAt l s c := by
  induction c generalizing s with
  | zero => rfl
  | succ c ih => simp only [readBytesAt, List.get?_cons_succ, ih]

theorem readBytesAt_append (l1 l2 : List Nat) (s c : Nat) :
    readBytesAt (l1 ++ l2) (l1.length + s) c = readBytesAt l2 s c := by
  induction l1 with
  | nil => simp
  | cons x t ih =>
    have h : t.length + 1 + s = t.length + s + 1 := by omega
    simp only [List.cons_append, List.length_cons, h, readBytesAt_cons_succ]
    exact ih

theorem readBytesAt_prefix (l1 l2 : List Nat) :
    readBytesAt (l1 ++ l2) 0 l1.length = some l1 := by
  induction l1 with
  | nil => rfl
  | cons x t ih =>
    simp only [List.cons_append, List.length_cons, readBytesAt,
      List.get?_cons_zero, readBytesAt_cons_succ, ih]
    rfl

example : readBytesAt [9, 8, 7, 6] 1 2 = some [8, 7] := by decide

/-- Evaluation of `Camera::from_bytes` on a structurally well-formed
payload: the fields come back verbatim and `incs_being_managed` is empty. -/
theorem Camera.from_bytes_layout
    (id st range lenB del : Nat) (lat lon borders : List Nat)
    (hlat : lat.length = 8) (hlon : lon.length = 8)
    (hb : borders.length = lenB) :
    Camera.from_bytes
        (id :: (lat ++ (lon ++ (st :: range :: lenB :: (borders ++ [del]))))) =
      some { id := id, latitude := bytesToNatBE lat,
             longitude := bytesToNatBE lon,
             state := CameraState.from_byte st, range := range,
             border_cameras := borders, deleted := del == 1,
             incs_being_managed := [] } := by
  set Q : List Nat := borders ++ [del] with hQ
  set P1 : List Nat := st :: range :: lenB :: Q with hP1
  set M : List Nat := lon ++ P1 with hM
  set L : List Nat := lat ++ M with hL
  have g0 : (id :: L).get? 0 = some id := rfl
  have g1 : readBytesAt (id :: L) 1 8 = some lat := by
    have e : readBytesAt (id :: L) 1 8 = readBytesAt L 0 8 :=
      readBytesAt_cons_succ id L 0 8
    rw [e, ← hlat, hL]
    exact readBytesAt_prefix lat M
  have g2 : readBytesAt (id :: L) 9 8 = some lon := by
    have e : readBytesAt (id :: L) 9 8 = readBytesAt L 8 8 :=
      readBytesAt_cons_succ id L 8 8
    have a : readBytesAt (lat ++ M) (lat.length + 0) 8 = readBytesAt M 0 8 :=
      readBytesAt_append lat M 0 8
    rw [hlat] at a
    norm_num at a
    rw [e, hL, a, ← hlon, hM]
    exact readBytesAt_prefix lon P1
  have g17 : (id :: L).get? 17 = some st := by
    rw [show (17 : Nat) = lat.length + (lon.length + 0) + 1 by omega]
    rw [List.get?_cons_succ, hL, get?_append_skip lat M, hM,
      get?_append_skip lon P1, hP1]
    rfl
  have g18 : (id :: L).get? 18 = some range := by
    rw [show (18 : Nat) = lat.length + (lon.length + 1) + 1 by omega]
    rw [List.get?_cons_succ, hL, get?_append_skip lat M, hM,
      get?_append_skip lon P1, hP1]
    rfl
  have g19 : (id :: L).get? 19 = some lenB := by
    rw [show (19 : Nat) = lat.length + (lon.length + 2) + 1 by omega]
    rw [List.get?_cons_succ, hL, get?_append_skip lat M, hM,
      get?_append_skip lon P1, hP1]
    rfl
  have g20 : readBytesAt (id :: L) 20 lenB = some borders := by
    have e : readBytesAt (id :: L) 20 lenB = readBytesAt L 19 lenB :=
      readBytesAt_cons_succ id L 19 lenB
    have a : readBytesAt (lat ++ M) (lat.length + 11) lenB = readBytesAt M 11 lenB :=
      readBytesAt_append lat M 11 lenB
    rw [hlat] at a
    norm_num at a
    have b : readBytesAt (lon ++ P1) (lon.length + 3) lenB = readBytesAt P1 3 lenB :=
      readBytesAt_append lon P1 3 lenB
    rw [hlon] at b
    norm_num at b
    have c1 : readBytesAt P1 3 lenB = readBytesAt Q 0 lenB := by
      rw [hP1]
      have s1 : readBytesAt (st :: range :: lenB :: Q) 3 lenB =
          readBytesAt (range :: lenB :: Q) 2 lenB :=
        readBytesAt_cons_succ st _ 2 lenB
      have s2 : readBytesAt (range :: lenB :: Q) 2 lenB =
          readBytesAt (lenB :: Q) 1 lenB :=
        readBytesAt_cons_succ range _ 1 lenB
      have s3 : readBytesAt (lenB :: Q) 1 lenB = readBytesAt Q 0 lenB :=
        readBytesAt_cons_succ lenB _ 0 lenB
      rw [s1, s2, s3]
    rw [e, hL, a, hM, b, c1, ← hb, hQ]
    exact readBytesAt_prefix borders [del]
  have gdel : (id :: L).get? (20 + lenB) = some del := by
    rw [show 20 + lenB = lat.length + (lon.length + (3 + lenB)) + 1 by omega]
    rw [List.get?_cons_succ, hL, get?_append_skip lat M, hM, get?_append_skip lon P1, hP1]
    rw [show 3 + lenB = 2 + lenB + 1 by omega, List.get?_cons_succ]
    rw [show 2 + lenB = 1 + lenB + 1 by omega, List.get?_cons_succ]
    rw [show 1 + lenB = lenB + 1 by omega, List.get?_cons_succ, hQ]
    rw [show lenB = borders.length + 0 by omega, get?_append_skip borders [del] 0]
    rfl
  simp only [Camera.from_bytes, g0, g1, g2, g17, g18, g19, g20, gdel,
    Option.bind_eq_bind, Option.some_bind]

/-- Field validity of a `Camera Nat` as the Rust types guarantee it:
`u8` fields below 256, `f64` bit patterns below `2^64`, and a border list
a `u8` length can describe. -/
def Camera.WF (c : Camera Nat) : Prop :=
  c.id < 256 ∧ c.latitude < 256 ^ 8 ∧ c.longitude < 256 ^ 8 ∧
    c.range < 256 ∧ c.border_cameras.length < 256 ∧
    ∀ b ∈ c.border_cameras, b < 256

instance (c : Camera Nat) : Decidable (Camera.WF c) := by
  unfold Camera.WF; infer_instance

theorem camera_state_byte_inverse (s : CameraState) :
    ∃ b, s.to_byte = [b] ∧ CameraState.from_byte b = s := by
  cases s
  · exact ⟨0, rfl, rfl⟩
  · exact ⟨1, rfl, rfl⟩

theorem camera_from_bytes_always_empty_incs (bytes : List Nat) (c : Camera Nat)
    (h : Camera.from_bytes bytes = some c) : c.incs_being_managed = [] := by
  unfold Camera.from_bytes at h
  simp only [Option.bind_eq_bind, Option.bind_eq_some, Option.some.injEq] at h
  obtain ⟨i, -, lat, -, lon, -, st, -, rg, -, lenB, -, bs, -, del, -, hc⟩ := h
  rw [← hc]

/-- C10 (amended): `Camera::from_bytes` always reconstructs with an empty
managed-incidents list (the layout carries no such data), and for every
well-formed camera (fields within their `u8`/`f64` ranges and fewer than
256 border ids) the payload round-trip `from_bytes (to_bytes c) = c` holds
iff `c`'s managed-incidents list is empty. -/
theorem camera_roundtrip_iff_no_incidents :
    (∀ c : Camera Nat, Camera.WF c →
        (Camera.from_bytes c.to_bytes = some c ↔ c.incs_being_managed = [])) ∧
    ∀ (bytes : List Nat) (c : Camera Nat),
      Camera.from_bytes bytes = some c → c.incs_being_managed = [] := by
  refine ⟨?_, camera_from_bytes_always_empty_incs⟩
  rintro ⟨cid, clat, clon, cst, crng, cbc, cdel, cincs⟩ hwf
  obtain ⟨hid, hlat64, hlon64, hrng, hbclen, hbcall⟩ := hwf
  obtain ⟨stB, hstB, hfrom⟩ := camera_state_byte_inverse cst
  have hshape :
      Camera.to_bytes ⟨cid, clat, clon, cst, crng, cbc, cdel, cincs⟩ =
        cid :: (natToBytesBE 8 clat ++ (natToBytesBE 8 clon ++
          (stB :: crng :: (cbc.length % 256) ::
            (cbc ++ [if cdel then 1 else 0])))) := by
    simp [Camera.to_bytes, hstB, List.append_assoc]
  rw [hshape,
    Camera.from_bytes_layout cid stB crng (cbc.length % 256)
      (if cdel then 1 else 0) (natToBytesBE 8 clat) (natToBytesBE 8 clon) cbc
      (natToBytesBE_length 8 clat) (natToBytesBE_length 8 clon)
      (Nat.mod_eq_of_lt hbclen).symm]
  rw [bytesToNatBE_natToBytesBE_of_lt hlat64,
    bytesToNatBE_natToBytesBE_of_lt hlon64, hfrom]
  have hdel : ((if cdel then 1 else 0) == 1) = cdel := by
    cases cdel <;> rfl
  rw [hdel]
  simp [eq_comm]

/-- C10 witness: the round-trip equivalence evaluated on a concrete
well-formed camera. -/
theorem camera_roundtrip_iff_no_incidents_witness :
    Camera.WF (Camera.new 12 3 4 5) ∧
    (Camera.from_bytes (Camera.new 12 3 4 5 : Camera Nat).to_bytes =
        some (Camera.new 12 3 4 5) ↔
      (Camera.new 12 3 4 5 : Camera Nat).incs_being_managed = []) :=
  ⟨by decide, camera_roundtrip_iff_no_incidents.1 (Camera.new 12 3 4 5) (by decide)⟩

set_option maxRecDepth 8192 in
/-- C10 counterexample: for a camera with 256 border ids (and no managed
incidents) the `len() as u8` truncation makes the round-trip fail, so the
round-trip does not hold exactly iff the managed-incidents list is empty. -/
theorem camera_roundtrip_fails_for_256_borders :
    ({ (Camera.new 1 0 0 0 : Camera Nat) with border_cameras := List.replicate 256 7 }).incs_being_managed = [] ∧
    Camera.from_bytes ({ (Camera.new 1 0 0 0 : Camera Nat) with border_cameras := List.replicate 256 7 }).to_bytes ≠
      some { (Camera.new 1 0 0 0 : Camera Nat) with border_cameras := List.replicate 256 7 } := by
  decide

/-! ### Camera state-machine operations (claim C3) -/

/-- One public mutating camera operation on the managed-incidents list. -/
inductive CamOp : Type
  | append (inc_id : Nat)
  | remove (inc_id : Nat)

/-- Dispatch of one operation. -/
def Camera.applyOp {α : Type} (c : Camera α) : CamOp → Camera α
  | CamOp.append i => c.append_to_incs_being_managed i
  | CamOp.remove i => c.remove_from_incs_being_managed i

/-- The spec invariant: `Active` iff some incident is being managed. -/
def camInv {α : Type} (c : Camera α) : Prop :=
  c.state = CameraState.Active ↔ c.incs_being_managed ≠ []

theorem camInv_applyOp {α : Type} (c : Camera α) (op : CamOp) (h : camInv c) :
    camInv (c.applyOp op) := by
  cases op with
  | append i =>
    cases hs : c.state <;>
      simp [camInv, Camera.applyOp, Camera.append_to_incs_being_managed,
        Camera.set_state_to, hs]
  | remove i =>
    simp only [Camera.applyOp, Camera.remove_from_incs_being_managed]
    by_cases hc : c.incs_being_managed.contains i
    · rw [if_pos hc]
      by_cases he : (c.incs_being_managed.erase i).isEmpty
      · rw [if_pos he]
        have herase : c.incs_being_managed.erase i = [] := by simpa using he
        simp [camInv, Camera.set_state_to, herase]
      · rw [if_neg he]
        have herase : c.incs_being_managed.erase i ≠ [] := by simpa using he
        have hmem : i ∈ c.incs_being_managed := by simpa using hc
        have hne : c.incs_being_managed ≠ [] := List.ne_nil_of_mem hmem
        simp [camInv, h.mpr hne, herase]
    · rw [if_neg hc]
      exact h

/-- C3 (amended): for every camera constructed by `Camera::new` and every
sequence of `append_to_incs_being_managed` / `remove_from_incs_being_managed`
operations, the camera is `Active` iff its managed-incidents list is
non-empty.  (`from_bytes` is excluded as a constructor: it breaks the
invariant, see the counterexample.) -/
theorem camera_active_iff_managing {α : Type} (ops : List CamOp) (id : Nat)
    (lat lon : α) (range : Nat) :
    ((ops.foldl Camera.applyOp (Camera.new id lat lon range)).state =
        CameraState.Active ↔
      (ops.foldl Camera.applyOp (Camera.new id lat lon range)).incs_being_managed ≠ []) := by
  have base : camInv (Camera.new id lat lon range) := by
    simp [camInv, Camera.new]
  have preserved : ∀ (l : List CamOp) (c : Camera α),
      camInv c → camInv (l.foldl Camera.applyOp c) := by
    intro l
    induction l with
    | nil => intro c h; exact h
    | cons op t ih => intro c h; exact ih _ (camInv_applyOp c op h)
  exact preserved ops _ base

/-- C3 counterexample: `Camera::from_bytes` on a payload whose state byte
says `Active` yields an `Active` camera with an empty managed-incidents
list, so the invariant does not survive `from_bytes` construction. -/
theorem camera_from_bytes_active_without_incidents :
    Camera.from_bytes
        [1, 0, 0, 0, 0, 0, 0, 0, 0, 0, 0, 0, 0, 0, 0, 0, 0, 1, 5, 0, 0] =
      some { id := 1, latitude := 0, longitude := 0,
             state := CameraState.Active, range := 5, border_cameras := [],
             deleted := false, incs_being_managed := [] } ∧
    ¬ camInv ({ id := 1, latitude := 0, longitude := 0,
                state := CameraState.Active, range := 5, border_cameras := [],
                deleted := false, incs_being_managed := [] } : Camera Nat) := by
  constructor
  · decide
  · simp [camInv]

/-- C1: evaluation of the SUBSCRIBE codec at failing inputs.  The decoder
(whose per-filter loop is commented out in the source) returns only the
first filter of a two-filter message, and panics on a zero-filter message,
so `subs_msg_from_bytes (m.to_bytes()) = Ok(m)` fails for well-formed
messages with any filter count other than one. -/
theorem subscribe_roundtrip_drops_topics :
    subs_msg_from_bytes (SubscribeMessage.new 1 [([97], 0), ([98], 1)]).to_bytes =
      RustResult.ok (SubscribeMessage.new 1 [([97], 0)]) ∧
    SubscribeMessage.new 1 [([97], 0)] ≠ SubscribeMessage.new 1 [([97], 0), ([98], 1)] ∧
    subs_msg_from_bytes (SubscribeMessage.new 7 []).to_bytes = RustResult.panic := by
  decide

/-- C4: the decoder does not return an error result on malformed input —
it panics: on the empty vector, on a five-byte truncation of a valid
encoding, and on a topic whose bytes (`0xFF`) are not valid UTF-8
(`from_utf8(...).unwrap()`). -/
theorem subscribe_decode_panics_on_bad_input :
    subs_msg_from_bytes [] = RustResult.panic ∧
    subs_msg_from_bytes ((SubscribeMessage.new 1 [([97], 0)]).to_bytes.take 5) =
      RustResult.panic ∧
    subs_msg_from_bytes (SubscribeMessage.new 1 [([255], 0)]).to_bytes =
      RustResult.panic := by
  decide

/-- C7 (amended): the packet ids minted by one `MQTTClientWriter` follow
the counter `n % 2^16`: the `n`-th call returns `n` for `1 ≤ n ≤ 65535`
(hence nonzero and pairwise distinct in that range), but the counter wraps
at `2^16` rather than skipping 0. -/
theorem generate_packet_id_counter :
    (∀ n : Nat, nthPacketId n = n % 65536) ∧
    (∀ n : Nat, 1 ≤ n → n ≤ 65535 → nthPacketId n = n ∧ nthPacketId n ≠ 0) ∧
    (∀ m n : Nat, 1 ≤ m → m < n → n ≤ 65535 →
      nthPacketId m ≠ nthPacketId n) := by
  refine ⟨fun n => packetIdAfter_counter n, ?_, ?_⟩
  · intro n h1 h2
    have h : nthPacketId n = n % 65536 := packetIdAfter_counter n
    constructor <;> omega
  · intro m n h1 h2 h3
    have hm : nthPacketId m = m % 65536 := packetIdAfter_counter m
    have hn : nthPacketId n = n % 65536 := packetIdAfter_counter n
    omega

/-- C7 witness: the counter evaluated at the third and fifth calls. -/
theorem generate_packet_id_counter_witness :
    (1 ≤ 5 ∧ 5 ≤ 65535 ∧ nthPacketId 5 = 5 ∧ nthPacketId 5 ≠ 0) ∧
    (1 ≤ 3 ∧ 3 < 5 ∧ nthPacketId 3 ≠ nthPacketId 5) :=
  ⟨⟨by decide, by decide,
      (generate_packet_id_counter.2.1 5 (by decide) (by decide)).1,
      (generate_packet_id_counter.2.1 5 (by decide) (by decide)).2⟩,
    ⟨by decide, by decide,
      generate_packet_id_counter.2.2 3 5 (by decide) (by decide) (by decide)⟩⟩

/-- C7 counterexample: the 65536-th call returns 0, so the ids do not form
a counter that "never takes the value 0" and the `n`-th call does not
always return `n`. -/
theorem generate_packet_id_takes_zero : nthPacketId 65536 = 0 := by
  rw [nthPacketId_state, packetIdAfter_counter]

/-! ## `src/apps/sist_dron/dron_current_info.rs` and its missing
collaborators -/

/-- Modelled from the spec: the module `sist_dron::dron_state` is not among
the provided sources.  The spec lists exactly five states (§4.5); the wire
byte is their 1-based index in the spec's order, and `from_byte` is the
partial inverse, any other byte being a decode error. -/
inductive DronState : Type
  | ExpectingToRecvIncident
  | RespondingToIncident
  | ManagingIncident
  | ReturningToBase
  | Mantainance
deriving DecidableEq

/-- Modelled from the spec: `DronState` serialization (one byte). -/
def DronState.to_byte : DronState → List Nat
  | DronState.ExpectingToRecvIncident => [1]
  | DronState.RespondingToIncident => [2]
  | DronState.ManagingIncident => [3]
  | DronState.ReturningToBase => [4]
  | DronState.Mantainance => [5]

/-- Modelled from the spec: `DronState` deserialization, a `Result` as the
source's `match state_res` shows. -/
def DronState.from_byte (b : Nat) : RustResult DronState :=
  if b = 1 then RustResult.ok DronState.ExpectingToRecvIncident
  else if b = 2 then RustResult.ok DronState.RespondingToIncident
  else if b = 3 then RustResult.ok DronState.ManagingIncident
  else if b = 4 then RustResult.ok DronState.ReturningToBase
  else if b = 5 then RustResult.ok DronState.Mantainance
  else RustResult.err

/-- Modelled from the spec: the module `sist_dron::dron_flying_info` is not
among the provided sources.  Layout (§6): `dir_lat(8) · dir_lon(8) ·
speed_u16_BE(2)`; the direction components are `f64` bit patterns. -/
structure DronFlyingInfo : Type where
  dir_lat : Nat
  dir_lon : Nat
  speed : Nat
deriving DecidableEq

/-- Modelled from the spec: `DronFlyingInfo` serialization. -/
def DronFlyingInfo.to_bytes (f : DronFlyingInfo) : List Nat :=
  natToBytesBE 8 f.dir_lat ++ natToBytesBE 8 f.dir_lon ++ natToBytesBE 2 f.speed

/-- Modelled from the spec: `DronFlyingInfo` deserialization of the 18-byte
layout from the head of `l`; a decode error on truncation (the codec
"fails with MalformedPacket on truncation", and the source applies `?` to
this call). -/
def DronFlyingInfo.from_bytes (l : List Nat) : RustResult DronFlyingInfo :=
  if 18 ≤ l.length then
    RustResult.ok
      { dir_lat := bytesToNatBE (l.take 8),
        dir_lon := bytesToNatBE ((l.drop 8).take 8),
        speed := bytesToNatBE ((l.drop 16).take 2) }
  else RustResult.err

/-- `DronCurrentInfo` (the `f64` position is embedded as bit patterns:
the serialization code only moves it through `to_be_bytes`). -/
structure DronCurrentInfo : Type where
  id : Nat
  latitude : Nat
  longitude : Nat
  battery_lvl : Nat
  state : DronState
  inc_id_to_resolve : Option Nat
  flying_info : Option DronFlyingInfo
deriving DecidableEq

/-- `DronCurrentInfo::new`: no incident in resolution and no flying info. -/
def DronCurrentInfo.new (id latitude longitude battery_lvl : Nat)
    (state : DronState) : DronCurrentInfo :=
  { id := id, latitude := latitude, longitude := longitude,
    battery_lvl := battery_lvl, state := state, inc_id_to_resolve := none,
    flying_info := none }

/-- `DronCurrentInfo::to_bytes`: id, position patterns, battery, state
byte, the incident id (`0` when `None`), then the flying-info flag byte
and, when present, the flying-info bytes. -/
def DronCurrentInfo.to_bytes (d : DronCurrentInfo) : List Nat :=
  [d.id] ++ natToBytesBE 8 d.latitude ++ natToBytesBE 8 d.longitude ++
    [d.battery_lvl] ++ d.state.to_byte ++
    [d.inc_id_to_resolve.getD 0] ++
    (match d.flying_info with
     | some f => [1] ++ f.to_bytes
     | none => [0])

/-- Lift of an out-of-bounds read to a panic. -/
def liftPanic {α : Type} : Option α → RustResult α
  | some a => RustResult.ok a
  | none => RustResult.panic

/-- The source's `if is_there_flying_info == 1 { flying_info =
Some(DronFlyingInfo::from_bytes(bytes[idx..].to_vec())?) }` step. -/
def readFlyingInfo (flag : Nat) (rest : List Nat) :
    RustResult (Option DronFlyingInfo) :=
  if flag = 1 then
    match DronFlyingInfo.from_bytes rest with
    | RustResult.ok f => RustResult.ok (some f)
    | RustResult.err => RustResult.err
    | RustResult.panic => RustResult.panic
  else RustResult.ok none

/-- `DronCurrentInfo::from_bytes`: reads the 21-byte header (indexing
panics when out of bounds), optionally the flying info (whose decode error
propagates via `?`), and finally matches the state decode result,
returning `Err` when the state byte was invalid. -/
def DronCurrentInfo.from_bytes (bytes : List Nat) :
    RustResult DronCurrentInfo := do
  let id ← liftPanic (bytes.get? 0)
  let latBytes ← liftPanic (readBytesAt bytes 1 8)
  let lonBytes ← liftPanic (readBytesAt bytes 9 8)
  let battery_lvl ← liftPanic (bytes.get? 17)
  let stByte ← liftPanic (bytes.get? 18)
  let state_res := DronState.from_byte stByte
  let read_inc_id ← liftPanic (bytes.get? 19)
  let inc_id_to_resolve := if read_inc_id ≠ 0 then some read_inc_id else none
  let is_there_flying_info ← liftPanic (bytes.get? 20)
  let flying_info ← readFlyingInfo is_there_flying_info (bytes.drop 21)
  match state_res with
  | RustResult.ok state =>
      pure { id := id, latitude := bytesToNatBE latBytes,
             longitude := bytesToNatBE lonBytes, battery_lvl := battery_lvl,
             state := state, inc_id_to_resolve := inc_id_to_resolve,
             flying_info := flying_info }
  | _ => RustResult.err

example :
    DronCurrentInfo.from_bytes
        (DronCurrentInfo.new 1 340 580 100
            DronState.ExpectingToRecvIncident).to_bytes =
      RustResult.ok (DronCurrentInfo.new 1 340 580 100
        DronState.ExpectingToRecvIncident) := by decide

example :
    DronCurrentInfo.from_bytes
        ({ DronCurrentInfo.new 1 340 580 100 DronState.ManagingIncident with inc_id_to_resolve := some 18, flying_info := some ⟨7, 9, 300⟩ } : DronCurrentInfo).to_bytes =
      RustResult.ok { DronCurrentInfo.new 1 340 580 100 DronState.ManagingIncident with inc_id_to_resolve := some 18, flying_info := some ⟨7, 9, 300⟩ } := by
  decide

/-- `DronCurrentInfo::get_id`. -/
def DronCurrentInfo.get_id (d : DronCurrentInfo) : Nat := d.id

/-- `DronCurrentInfo::get_current_position`. -/
def DronCurrentInfo.get_current_position (d : DronCurrentInfo) : Nat × Nat :=
  (d.latitude, d.longitude)

/-- `DronCurrentInfo::get_battery_lvl`: the source body is `self.id`. -/
def DronCurrentInfo.get_battery_lvl (d : DronCurrentInfo) : Nat := d.id

/-- `DronCurrentInfo::get_state`. -/
def DronCurrentInfo.get_state (d : DronCurrentInfo) : DronState := d.state

/-- `DronCurrentInfo::get_inc_id_to_resolve`. -/
def DronCurrentInfo.get_inc_id_to_resolve (d : DronCurrentInfo) : Option Nat :=
  d.inc_id_to_resolve

/-- C9: `get_battery_lvl` returns the id field, not the battery field;
for a drone built by `new` with `id ≠ battery`, the reported "battery"
differs from the battery that was stored. -/
theorem get_battery_lvl_returns_id :
    (∀ d : DronCurrentInfo, d.get_battery_lvl = d.id) ∧
    ∀ (id lat lon battery : Nat) (st : DronState), id ≠ battery →
      (DronCurrentInfo.new id lat lon battery st).get_battery_lvl ≠ battery := by
  refine ⟨fun d => rfl, ?_⟩
  intro id lat lon battery st hne
  simpa [DronCurrentInfo.new, DronCurrentInfo.get_battery_lvl] using hne

/-- C9 witness: a concrete drone whose id and battery differ. -/
theorem get_battery_lvl_returns_id_witness :
    (3 : Nat) ≠ 77 ∧
    (DronCurrentInfo.new 3 0 0 77
        DronState.ExpectingToRecvIncident).get_battery_lvl ≠ 77 :=
  ⟨by decide,
    get_battery_lvl_returns_id.2 3 0 0 77 DronState.ExpectingToRecvIncident
      (by decide)⟩

theorem drop_append_skip (l1 l2 : List Nat) (s : Nat) :
    (l1 ++ l2).drop (l1.length + s) = l2.drop s := by
  induction l1 with
  | nil => simp
  | cons x t ih =>
    have h : t.length + 1 + s = t.length + s + 1 := by omega
    simp only [List.cons_append, List.length_cons, h, List.drop_succ_cons]
    exact ih

theorem dron_state_byte_inverse (s : DronState) :
    ∃ b, s.to_byte = [b] ∧ DronState.from_byte b = RustResult.ok s := by
  cases s
  · exact ⟨1, rfl, rfl⟩
  · exact ⟨2, rfl, rfl⟩
  · exact ⟨3, rfl, rfl⟩
  · exact ⟨4, rfl, rfl⟩
  · exact ⟨5, rfl, rfl⟩

theorem rust_ok_bind {α β : Type} (a : α) (f : α → RustResult β) :
    (RustResult.ok a >>= f) = f a := rfl

theorem liftPanic_some {α : Type} (a : α) :
    liftPanic (some a) = RustResult.ok a := rfl

/-- Evaluation of `DronCurrentInfo::from_bytes` on a structurally
well-formed payload. -/
theorem dron_from_bytes_layout (id battery stB incB flagB : Nat)
    (lat lon rest : List Nat) (hlat : lat.length = 8) (hlon : lon.length = 8)
    (st : DronState) (hst : DronState.from_byte stB = RustResult.ok st)
    (fly : Option DronFlyingInfo)
    (hfly : readFlyingInfo flagB rest = RustResult.ok fly) :
    DronCurrentInfo.from_bytes
        (id :: (lat ++ (lon ++ (battery :: stB :: incB :: flagB :: rest)))) =
      RustResult.ok
        { id := id, latitude := bytesToNatBE lat,
          longitude := bytesToNatBE lon, battery_lvl := battery, state := st,
          inc_id_to_resolve := if incB ≠ 0 then some incB else none,
          flying_info := fly } := by
  set P1 : List Nat := battery :: stB :: incB :: flagB :: rest with hP1
  set M : List Nat := lon ++ P1 with hM
  set L : List Nat := lat ++ M with hL
  have g0 : (id :: L).get? 0 = some id := rfl
  have g1 : readBytesAt (id :: L) 1 8 = some lat := by
    have e : readBytesAt (id :: L) 1 8 = readBytesAt L 0 8 :=
      readBytesAt_cons_succ id L 0 8
    rw [e, ← hlat, hL]
    exact readBytesAt_prefix lat M
  have g2 : readBytesAt (id :: L) 9 8 = some lon := by
    have e : readBytesAt (id :: L) 9 8 = readBytesAt L 8 8 :=
      readBytesAt_cons_succ id L 8 8
    have a : readBytesAt (lat ++ M) (lat.length + 0) 8 = readBytesAt M 0 8 :=
      readBytesAt_append lat M 0 8
    rw [hlat] at a
    norm_num at a
    rw [e, hL, a, ← hlon, hM]
    exact readBytesAt_prefix lon P1
  have g17 : (id :: L).get? 17 = some battery := by
    rw [show (17 : Nat) = lat.length + (lon.length + 0) + 1 by omega]
    rw [List.get?_cons_succ, hL, get?_append_skip lat M, hM,
      get?_append_skip lon P1, hP1]
    rfl
  have g18 : (id :: L).get? 18 = some stB := by
    rw [show (18 : Nat) = lat.length + (lon.length + 1) + 1 by omega]
    rw [List.get?_cons_succ, hL, get?_append_skip lat M, hM,
      get?_append_skip lon P1, hP1]
    rfl
  have g19 : (id :: L).get? 19 = some incB := by
    rw [show (19 : Nat) = lat.length + (lon.length + 2) + 1 by omega]
    rw [List.get?_cons_succ, hL, get?_append_skip lat M, hM,
      get?_append_skip lon P1, hP1]
    rfl
  have g20 : (id :: L).get? 20 = some flagB := by
    rw [show (20 : Nat) = lat.length + (lon.length + 3) + 1 by omega]
    rw [List.get?_cons_succ, hL, get?_append_skip lat M, hM,
      get?_append_skip lon P1, hP1]
    rfl
  have gdrop : (id :: L).drop 21 = rest := by
    rw [show (21 : Nat) = lat.length + (lon.length + 4) + 1 by omega]
    rw [List.drop_succ_cons, hL, drop_append_skip lat M, hM,
      drop_append_skip lon P1, hP1]
    rfl
  simp only [DronCurrentInfo.from_bytes, g0, g1, g2, g17, g18, g19, g20,
    gdrop, liftPanic_some, rust_ok_bind, hst, hfly]
  rfl

/-- Round trip of the flying-info codec. -/
theorem flying_info_roundtrip (f : DronFlyingInfo)
    (hlat : f.dir_lat < 256 ^ 8) (hlon : f.dir_lon < 256 ^ 8)
    (hspeed : f.speed < 256 ^ 2) :
    DronFlyingInfo.from_bytes f.to_bytes = RustResult.ok f := by
  have l1 : (natToBytesBE 8 f.dir_lat).length = 8 := natToBytesBE_length 8 _
  have l2 : (natToBytesBE 8 f.dir_lon).length = 8 := natToBytesBE_length 8 _
  have l3 : (natToBytesBE 2 f.speed).length = 2 := natToBytesBE_length 2 _
  have hlen : f.to_bytes.length = 18 := by
    simp [DronFlyingInfo.to_bytes, l1, l2, l3]
  have htake8 : f.to_bytes.take 8 = natToBytesBE 8 f.dir_lat := by
    rw [DronFlyingInfo.to_bytes, List.append_assoc, ← l1]
    exact List.take_left _ _
  have hdrop8 : f.to_bytes.drop 8 =
      natToBytesBE 8 f.dir_lon ++ natToBytesBE 2 f.speed := by
    rw [DronFlyingInfo.to_bytes, List.append_assoc, ← l1]
    exact List.drop_left _ _
  have hdrop16 : f.to_bytes.drop 16 = natToBytesBE 2 f.speed := by
    have e : f.to_bytes.drop 16 = (f.to_bytes.drop 8).drop 8 := by
      rw [List.drop_drop]
    rw [e, hdrop8, ← l2]
    exact List.drop_left _ _
  have htake8' : (f.to_bytes.drop 8).take 8 = natToBytesBE 8 f.dir_lon := by
    rw [hdrop8, ← l2]
    exact List.take_left _ _
  have htake2 : (f.to_bytes.drop 16).take 2 = natToBytesBE 2 f.speed := by
    rw [hdrop16]
    have h := List.take_length (natToBytesBE 2 f.speed)
    rw [l3] at h
    exact h
  rw [DronFlyingInfo.from_bytes, if_pos (by omega), htake8, htake8', htake2]
  rw [bytesToNatBE_natToBytesBE_of_lt hlat, bytesToNatBE_natToBytesBE_of_lt hlon,
    bytesToNatBE_natToBytesBE_of_lt hspeed]

/-- Field validity of a `DronCurrentInfo` as the Rust types guarantee it:
`u8` fields below 256, `f64` bit patterns below `2^64`, the `u16` speed
below `2^16`. -/
def DronCurrentInfo.WF (d : DronCurrentInfo) : Prop :=
  d.id < 256 ∧ d.latitude < 256 ^ 8 ∧ d.longitude < 256 ^ 8 ∧
    d.battery_lvl < 256 ∧ d.inc_id_to_resolve.getD 0 < 256 ∧
    (d.flying_info.getD ⟨0, 0, 0⟩).dir_lat < 256 ^ 8 ∧
    (d.flying_info.getD ⟨0, 0, 0⟩).dir_lon < 256 ^ 8 ∧
    (d.flying_info.getD ⟨0, 0, 0⟩).speed < 256 ^ 2

instance (d : DronCurrentInfo) : Decidable (DronCurrentInfo.WF d) := by
  unfold DronCurrentInfo.WF
  infer_instance

/-- C5: `DronCurrentInfo::to_bytes` emits exactly the layout
`id(1) · lat(8 BE) · lon(8) · battery(1) · state(1) · inc_id(1; 0 when
absent) · has_flying_info(1) · [flying bytes]`, and for every well-formed
drone whose `inc_id_to_resolve` is not `Some(0)` the round-trip
`from_bytes (to_bytes d) = Ok(d)` holds, byte 0 decoding to `None`. -/
theorem dron_current_info_bytes :
    (∀ d : DronCurrentInfo, d.to_bytes =
        [d.id] ++ natToBytesBE 8 d.latitude ++ natToBytesBE 8 d.longitude ++
          [d.battery_lvl] ++ d.state.to_byte ++ [d.inc_id_to_resolve.getD 0] ++
          (match d.flying_info with
           | some f => [1] ++ (natToBytesBE 8 f.dir_lat ++
               natToBytesBE 8 f.dir_lon ++ natToBytesBE 2 f.speed)
           | none => [0])) ∧
    ∀ d : DronCurrentInfo, DronCurrentInfo.WF d →
      d.inc_id_to_resolve ≠ some 0 →
      DronCurrentInfo.from_bytes d.to_bytes = RustResult.ok d := by
  constructor
  · rintro ⟨id, lat, lon, bat, st, inc, fly⟩
    cases fly <;> rfl
  · rintro ⟨id, lat, lon, bat, st, inc, fly⟩ hwf hinc
    obtain ⟨hid, hlat64, hlon64, hbat, hincb, hflat, hflon, hfspeed⟩ := hwf
    obtain ⟨stB, hstB, hst⟩ := dron_state_byte_inverse st
    have hincB2 : (if inc.getD 0 ≠ 0 then some (inc.getD 0) else none) = inc := by
      cases inc with
      | none => simp
      | some i =>
        have hi : i ≠ 0 := by simpa using hinc
        simp [hi]
    cases fly with
    | none =>
      have hshape :
          DronCurrentInfo.to_bytes ⟨id, lat, lon, bat, st, inc, none⟩ =
            id :: (natToBytesBE 8 lat ++ (natToBytesBE 8 lon ++
              (bat :: stB :: (inc.getD 0) :: 0 :: []))) := by
        simp [DronCurrentInfo.to_bytes, hstB, List.append_assoc]
      rw [hshape,
        dron_from_bytes_layout id bat stB (inc.getD 0) 0
          (natToBytesBE 8 lat) (natToBytesBE 8 lon) []
          (natToBytesBE_length 8 lat) (natToBytesBE_length 8 lon) st hst
          none rfl]
      rw [bytesToNatBE_natToBytesBE_of_lt hlat64,
        bytesToNatBE_natToBytesBE_of_lt hlon64, hincB2]
    | some f =>
      have hfly : readFlyingInfo 1 f.to_bytes = RustResult.ok (some f) := by
        rw [readFlyingInfo, if_pos rfl,
          flying_info_roundtrip f (by simpa using hflat) (by simpa using hflon)
            (by simpa using hfspeed)]
      have hshape :
          DronCurrentInfo.to_bytes ⟨id, lat, lon, bat, st, inc, some f⟩ =
            id :: (natToBytesBE 8 lat ++ (natToBytesBE 8 lon ++
              (bat :: stB :: (inc.getD 0) :: 1 :: f.to_bytes))) := by
        simp [DronCurrentInfo.to_bytes, DronFlyingInfo.to_bytes, hstB,
          List.append_assoc]
      rw [hshape,
        dron_from_bytes_layout id bat stB (inc.getD 0) 1
          (natToBytesBE 8 lat) (natToBytesBE 8 lon) f.to_bytes
          (natToBytesBE_length 8 lat) (natToBytesBE_length 8 lon) st hst
          (some f) hfly]
      rw [bytesToNatBE_natToBytesBE_of_lt hlat64,
        bytesToNatBE_natToBytesBE_of_lt hlon64, hincB2]

/-- C5 witness: the layout and the round-trip evaluated on a concrete
flying drone resolving incident 18. -/
theorem dron_current_info_bytes_witness :
    DronCurrentInfo.WF { DronCurrentInfo.new 1 340 580 100 DronState.ManagingIncident with inc_id_to_resolve := some 18, flying_info := some ⟨7, 9, 300⟩ } ∧
    ({ DronCurrentInfo.new 1 340 580 100 DronState.ManagingIncident with inc_id_to_resolve := some 18, flying_info := some ⟨7, 9, 300⟩ } : DronCurrentInfo).inc_id_to_resolve ≠ some 0 ∧
    DronCurrentInfo.from_bytes ({ DronCurrentInfo.new 1 340 580 100 DronState.ManagingIncident with inc_id_to_resolve := some 18, flying_info := some ⟨7, 9, 300⟩ } : DronCurrentInfo).to_bytes =
      RustResult.ok { DronCurrentInfo.new 1 340 580 100 DronState.ManagingIncident with inc_id_to_resolve := some 18, flying_info := some ⟨7, 9, 300⟩ } :=
  ⟨by decide, by decide,
    dron_current_info_bytes.2 _ (by decide) (by decide)⟩

/-! ## `src/apps/sist_monitoreo/ui_sistema_monitoreo.rs`:
the incident-resolution protocol -/

/-- Modelled from the spec: the module `incident_data::incident_source` is
not among the provided sources; an incident's source is `Manual` or
`Automated`. -/
inductive IncidentSource : Type
  | Manual
  | Automated
deriving DecidableEq

/-- Modelled from the spec: the module `incident_data::incident` is not
among the provided sources.  An `Incident` carries an 8-bit id, a position
(embedded as `f64` bit patterns), a source, and the `resolved` and `sent`
flags. -/
structure Incident : Type where
  id : Nat
  latitude : Nat
  longitude : Nat
  source : IncidentSource
  resolved : Bool
  sent : Bool
deriving DecidableEq

/-- Modelled from the spec: `Incident::set_resolved` sets the `resolved`
flag. -/
def Incident.set_resolved (i : Incident) : Incident :=
  { i with resolved := true }

/-- The monitor-UI state that the resolution protocol touches:
`incidents_to_resolve` (incident id → drones observed `ManagingIncident`
for it), `hashmap_incidents` (incident id → stored incident, an
association list standing for the `HashMap`), and the incidents handed to
`send_incident_for_publish`, in order.  The map-rendering state
(`places` etc.) is omitted: no claim touches it. -/
structure UIState : Type where
  incidents_to_resolve : List (Nat × List DronCurrentInfo)
  hashmap_incidents : List (Nat × Incident)
  published : List Incident
deriving DecidableEq

/-- The source's `position`-and-push update of `incidents_to_resolve`:
append the drone to the entry of `inc_info` when one exists (first match),
otherwise push a new `IncidentWithDrones` entry holding just this drone. -/
def pushDronToIncident :
    List (Nat × List DronCurrentInfo) → Nat → DronCurrentInfo →
      List (Nat × List DronCurrentInfo)
  | [], inc_info, dron => [(inc_info, [dron])]
  | e :: rest, inc_info, dron =>
    if e.1 = inc_info then (e.1, e.2 ++ [dron]) :: rest
    else e :: pushDronToIncident rest inc_info dron

/-- `HashMap::remove` on the association list: the removed value (if the
key is present) and the remaining table. -/
def removeIncident :
    List (Nat × Incident) → Nat → Option Incident × List (Nat × Incident)
  | [], _ => (none, [])
  | e :: rest, k =>
    if e.1 = k then (some e.2, rest)
    else
      let r := removeIncident rest k
      (r.1, e :: r.2)

/-- The source's `for incident in self.incidents_to_resolve.iter()` loop:
every entry whose drone list has length exactly 2 and whose incident is
still in the hashmap gets removed from the hashmap, `set_resolved`, and
published. -/
def resolveLoop :
    List (Nat × List DronCurrentInfo) → List (Nat × Incident) →
      List Incident → List (Nat × Incident) × List Incident
  | [], h, p => (h, p)
  | e :: rest, h, p =>
    if e.2.length = 2 then
      match removeIncident h e.1 with
      | (some incident, h') =>
          resolveLoop rest h' (p ++ [incident.set_resolved])
      | (none, h') => resolveLoop rest h' p
    else resolveLoop rest h p

/-- `UISistemaMonitoreo::handle_drone_message`: decode the payload (`if
let Ok(dron)`: a decode error leaves the state unchanged, a panic
propagates); when the drone is `ManagingIncident` and carries an incident
id, record the observation; then run the resolution loop. -/
def handle_drone_message (s : UIState) (payload : List Nat) :
    RustResult UIState :=
  match DronCurrentInfo.from_bytes payload with
  | RustResult.ok dron =>
    let entries :=
      if dron.get_state = DronState.ManagingIncident then
        match dron.get_inc_id_to_resolve with
        | some inc_info => pushDronToIncident s.incidents_to_resolve inc_info dron
        | none => s.incidents_to_resolve
      else s.incidents_to_resolve
    let hp := resolveLoop entries s.hashmap_incidents s.published
    RustResult.ok { incidents_to_resolve := entries,
                    hashmap_incidents := hp.1, published := hp.2 }
  | RustResult.err => RustResult.ok s
  | RustResult.panic => RustResult.panic

/-- A concrete drone, `ManagingIncident` for incident 1. -/
def dronEx : DronCurrentInfo :=
  { DronCurrentInfo.new 1 340 580 100 DronState.ManagingIncident with
      inc_id_to_resolve := some 1 }

/-- A concrete unresolved incident with id 1. -/
def incidentEx : Incident :=
  { id := 1, latitude := 340, longitude := 580,
    source := IncidentSource.Manual, resolved := false, sent := false }

/-- C2 counterexample: two `ManagingIncident` messages from the same
single drone (id 1) reach the size-2 quorum: the monitor marks incident 1
resolved and republishes it although only one distinct drone id was ever
observed. -/
theorem monitor_single_drone_reaches_quorum :
    handle_drone_message ⟨[], [(1, incidentEx)], []⟩ dronEx.to_bytes =
      RustResult.ok ⟨[(1, [dronEx])], [(1, incidentEx)], []⟩ ∧
    handle_drone_message ⟨[(1, [dronEx])], [(1, incidentEx)], []⟩
        dronEx.to_bytes =
      RustResult.ok ⟨[(1, [dronEx, dronEx])], [],
        [{ id := 1, latitude := 340, longitude := 580,
           source := IncidentSource.Manual, resolved := true,
           sent := false }]⟩ ∧
    dronEx.id = 1 := by
  decide

/-- C2 (amended): the monitor resolves on a quorum of two recorded
`ManagingIncident` observations, counted with multiplicity rather than by
distinct drone ids: for any drone message in state `ManagingIncident`
carrying incident id `i`, starting from a state that stores incident `i`
and has no recorded observations, the first handling publishes nothing and
a second handling of the same message publishes the incident
`set_resolved` — two observations of one single drone suffice. -/
theorem monitor_quorum_counts_observations
    (payload : List Nat) (dron : DronCurrentInfo) (i : Nat) (inc : Incident)
    (hdec : DronCurrentInfo.from_bytes payload = RustResult.ok dron)
    (hstate : dron.state = DronState.ManagingIncident)
    (hid : dron.inc_id_to_resolve = some i) :
    handle_drone_message ⟨[], [(i, inc)], []⟩ payload =
      RustResult.ok ⟨[(i, [dron])], [(i, inc)], []⟩ ∧
    handle_drone_message ⟨[(i, [dron])], [(i, inc)], []⟩ payload =
      RustResult.ok ⟨[(i, [dron, dron])], [], [inc.set_resolved]⟩ ∧
    (inc.set_resolved).resolved = true := by
  refine ⟨?_, ?_, rfl⟩
  · simp only [handle_drone_message, hdec, DronCurrentInfo.get_state, hstate,
      DronCurrentInfo.get_inc_id_to_resolve, hid]
    simp [pushDronToIncident, resolveLoop]
  · simp only [handle_drone_message, hdec, DronCurrentInfo.get_state, hstate,
      DronCurrentInfo.get_inc_id_to_resolve, hid]
    simp [pushDronToIncident, resolveLoop, removeIncident]

/-- C2 witness: the quorum behaviour evaluated on the concrete drone and
incident. -/
theorem monitor_quorum_counts_observations_witness :
    (DronCurrentInfo.from_bytes dronEx.to_bytes = RustResult.ok dronEx ∧
      dronEx.state = DronState.ManagingIncident ∧
      dronEx.inc_id_to_resolve = some 1) ∧
    (handle_drone_message ⟨[], [(1, incidentEx)], []⟩ dronEx.to_bytes =
        RustResult.ok ⟨[(1, [dronEx])], [(1, incidentEx)], []⟩ ∧
      handle_drone_message ⟨[(1, [dronEx])], [(1, incidentEx)], []⟩
          dronEx.to_bytes =
        RustResult.ok ⟨[(1, [dronEx, dronEx])], [], [incidentEx.set_resolved]⟩ ∧
      (incidentEx.set_resolved).resolved = true) :=
  ⟨⟨by decide, by decide, by decide⟩,
    monitor_quorum_counts_observations dronEx.to_bytes dronEx 1 incidentEx
      (by decide) (by decide) (by decide)⟩

/-! ## Camera geometry (claims C6 and C8).

The geometric code computes with the `f64` coordinates (subtraction,
squaring, square root), so here the coordinate type is `ℝ`. -/

/-- `Camera::is_within_range_from_self`: whether the given coordinates lie
within `range / 10000000.0` of the camera,
`sqrt((self.lat - lat)^2 + (self.lon - lon)^2) <= range / 1e7`. -/
def Camera.is_within_range_from_self (c : Camera ℝ)
    (latitude longitude range : ℝ) : Prop :=
  Real.sqrt ((c.latitude - latitude) ^ 2 + (c.longitude - longitude) ^ 2) ≤
    range / 10000000

/-- `Camera::will_register`: delegates to `is_within_range_from_self` with
the camera's own (u8) range. -/
def Camera.will_register (c : Camera ℝ) (p : ℝ × ℝ) : Prop :=
  c.is_within_range_from_self p.1 p.2 (c.range : ℝ)

/-- The bordering test of `Camera::mutually_add_if_bordering`:
`is_within_range_from_self` at the candidate's position with the
`const_border_range` 5.0. -/
def inRangeCam (a b : Camera ℝ) : Prop :=
  a.is_within_range_from_self b.latitude b.longitude 5

open scoped Classical in
/-- `Camera::mutually_add_if_bordering`: when the candidate is in border
range, `self` pushes the candidate's id and the candidate pushes `self`'s
id; otherwise both are unchanged.  Returns the (self, candidate) pair of
resulting cameras (the Rust mutates both through `&mut`). -/
noncomputable def Camera.mutually_add_if_bordering (a b : Camera ℝ) :
    Camera ℝ × Camera ℝ :=
  if inRangeCam a b then
    ({ a with border_cameras := a.border_cameras ++ [b.id] },
     { b with border_cameras := b.border_cameras ++ [a.id] })
  else (a, b)

/-- `Camera::remove_from_list_if_bordering`: drop the first occurrence of
the other camera's id from `self`'s border list (`position` +
`Vec::remove`, i.e. `List.erase`). -/
def Camera.remove_from_list_if_bordering {α : Type}
    (self camera_to_delete : Camera α) : Camera α :=
  { self with
      border_cameras := self.border_cameras.erase camera_to_delete.id }

/-- One step of the startup bordering computation or of a pairwise
removal, applied to the cameras at two distinct positions of the table. -/
inductive BorderOp : Type
  | add (i j : Nat)
  | rem (i j : Nat)

/-- Modelled from the spec: the startup loop applying
`mutually_add_if_bordering` to every unordered pair lives in a module not
among the provided sources ("for every unordered pair `(a, b)`, add each
to the other's border list iff distance ≤ 5.0/1e7"); pairwise removals
apply `remove_from_list_if_bordering` in both directions.  A step on two
valid distinct positions updates both cameras; anything else is a no-op
(Rust's `&mut` aliasing forbids `i = j`). -/
noncomputable def applyBorderOp (l : List (Camera ℝ)) :
    BorderOp → List (Camera ℝ)
  | BorderOp.add i j =>
    if h : i < l.length ∧ j < l.length ∧ i ≠ j then
      let p := Camera.mutually_add_if_bordering (l.get ⟨i, h.1⟩) (l.get ⟨j, h.2.1⟩)
      (l.set i p.1).set j p.2
    else l
  | BorderOp.rem i j =>
    if h : i < l.length ∧ j < l.length ∧ i ≠ j then
      (l.set i ((l.get ⟨i, h.1⟩).remove_from_list_if_bordering
          (l.get ⟨j, h.2.1⟩))).set j
        ((l.get ⟨j, h.2.1⟩).remove_from_list_if_bordering (l.get ⟨i, h.1⟩))
    else l

/-- A whole run of startup additions and pairwise removals. -/
noncomputable def applyBorderOps (l : List (Camera ℝ))
    (ops : List BorderOp) : List (Camera ℝ) :=
  ops.foldl applyBorderOp l

/-- The camera ids are pairwise distinct (the spec stores cameras in a
mapping keyed by id). -/
def idsDistinct (l : List (Camera ℝ)) : Prop :=
  (l.map Camera.id).Nodup

instance (l : List (Camera ℝ)) : Decidable (idsDistinct l) := by
  unfold idsDistinct
  infer_instance

/-- Occurrence-count symmetry of the border lists, the inductive invariant
behind `b ∈ cams[a].border ⇔ a ∈ cams[b].border`. -/
def borderCountSym (l : List (Camera ℝ)) : Prop :=
  ∀ (i j : Nat) (hi : i < l.length) (hj : j < l.length),
    (l.get ⟨i, hi⟩).border_cameras.count (l.get ⟨j, hj⟩).id =
      (l.get ⟨j, hj⟩).border_cameras.count (l.get ⟨i, hi⟩).id

theorem count_append_single (l : List Nat) (x y : Nat) :
    (l ++ [x]).count y = l.count y + (if x = y then 1 else 0) := by
  simp [List.count_append, List.count_singleton']

theorem count_erase_nat (l : List Nat) (x y : Nat) :
    (l.erase x).count y = l.count y - (if x = y then 1 else 0) := by
  simp [List.count_erase]

theorem list_set_get_self {α : Type} (l : List α) (i : Nat) (h : i < l.length) :
    l.set i (l.get ⟨i, h⟩) = l := by
  apply List.ext_get (by simp)
  intro k h1 h2
  by_cases hk : k = i
  · subst hk
    exact List.get_set_eq h1
  · exact List.get_set_ne (fun he => hk he.symm) h1

theorem get_set_set {α : Type} (l : List α) (i j : Nat) (a' b' : α)
    (k : Nat) (hk : k < l.length)
    (hk' : k < ((l.set i a').set j b').length) :
    ((l.set i a').set j b').get ⟨k, hk'⟩ =
      if k = j then b'
      else if k = i then a' else l.get ⟨k, hk⟩ := by
  have hkA : k < (l.set i a').length := by simpa using hk
  by_cases hkj : k = j
  · subst hkj
    have h1 : ((l.set i a').set k b').get ⟨k, hk'⟩ = b' := List.get_set_eq hk'
    rw [h1]
    simp
  · have h1 : ((l.set i a').set j b').get ⟨k, hk'⟩ =
        (l.set i a').get ⟨k, hkA⟩ :=
      List.get_set_ne (fun he => hkj he.symm) hk'
    rw [h1]
    by_cases hki : k = i
    · subst hki
      have h2 : (l.set k a').get ⟨k, hkA⟩ = a' := List.get_set_eq hkA
      rw [h2]
      simp [hkj]
    · have h2 : (l.set i a').get ⟨k, hkA⟩ = l.get ⟨k, hk⟩ :=
        List.get_set_ne (fun he => hki he.symm) hkA
      rw [h2]
      simp [hkj, hki]

theorem inRangeCam_symm (a b : Camera ℝ) : inRangeCam a b ↔ inRangeCam b a := by
  unfold inRangeCam Camera.is_within_range_from_self
  rw [show (a.latitude - b.latitude) ^ 2 = (b.latitude - a.latitude) ^ 2 by ring,
    show (a.longitude - b.longitude) ^ 2 = (b.longitude - a.longitude) ^ 2 by ring]

theorem mutually_add_spec (a b : Camera ℝ) :
    (inRangeCam a b ∧ Camera.mutually_add_if_bordering a b =
        ({ a with border_cameras := a.border_cameras ++ [b.id] },
         { b with border_cameras := b.border_cameras ++ [a.id] })) ∨
    (¬ inRangeCam a b ∧ Camera.mutually_add_if_bordering a b = (a, b)) := by
  by_cases h : inRangeCam a b
  · exact Or.inl ⟨h, by rw [Camera.mutually_add_if_bordering, if_pos h]⟩
  · exact Or.inr ⟨h, by rw [Camera.mutually_add_if_bordering, if_neg h]⟩

theorem idsDistinct_ne (l : List (Camera ℝ)) (h : idsDistinct l) (i j : Nat)
    (hi : i < l.length) (hj : j < l.length) (hij : i ≠ j) :
    (l.get ⟨i, hi⟩).id ≠ (l.get ⟨j, hj⟩).id := by
  intro he
  apply hij
  have hgi : (l.map Camera.id).get ⟨i, by simpa using hi⟩ = (l.get ⟨i, hi⟩).id :=
    @List.get_map _ _ Camera.id l ⟨i, by simpa using hi⟩
  have hgj : (l.map Camera.id).get ⟨j, by simpa using hj⟩ = (l.get ⟨j, hj⟩).id :=
    @List.get_map _ _ Camera.id l ⟨j, by simpa using hj⟩
  have heq : (l.map Camera.id).get ⟨i, by simpa using hi⟩ =
      (l.map Camera.id).get ⟨j, by simpa using hj⟩ := by
    rw [hgi, hgj, he]
  have := (List.Nodup.get_inj_iff h).mp heq
  simpa using congrArg Fin.val this

theorem map_id_set_set (l : List (Camera ℝ)) (i j : Nat)
    (hi : i < l.length) (hj : j < l.length) (a' b' : Camera ℝ)
    (ha : a'.id = (l.get ⟨i, hi⟩).id) (hb : b'.id = (l.get ⟨j, hj⟩).id) :
    ((l.set i a').set j b').map Camera.id = l.map Camera.id := by
  rw [List.map_set, List.map_set, ha, hb]
  have egi : (l.get ⟨i, hi⟩).id = (l.map Camera.id).get ⟨i, by simpa using hi⟩ :=
    (@List.get_map _ _ Camera.id l ⟨i, by simpa using hi⟩).symm
  have egj : (l.get ⟨j, hj⟩).id = (l.map Camera.id).get ⟨j, by simpa using hj⟩ :=
    (@List.get_map _ _ Camera.id l ⟨j, by simpa using hj⟩).symm
  rw [egi, egj, list_set_get_self, list_set_get_self]

theorem count_sym_set_set (l : List (Camera ℝ)) (i j : Nat)
    (hi : i < l.length) (hj : j < l.length) (hij : i ≠ j)
    (a' b' : Camera ℝ)
    (hida : a'.id = (l.get ⟨i, hi⟩).id)
    (hidb : b'.id = (l.get ⟨j, hj⟩).id)
    (hca : ∀ y, y ≠ (l.get ⟨j, hj⟩).id →
        a'.border_cameras.count y = (l.get ⟨i, hi⟩).border_cameras.count y)
    (hcb : ∀ y, y ≠ (l.get ⟨i, hi⟩).id →
        b'.border_cameras.count y = (l.get ⟨j, hj⟩).border_cameras.count y)
    (hcross : a'.border_cameras.count (l.get ⟨j, hj⟩).id =
        b'.border_cameras.count (l.get ⟨i, hi⟩).id)
    (hids : idsDistinct l) (hsym : borderCountSym l) :
    idsDistinct ((l.set i a').set j b') ∧
      borderCountSym ((l.set i a').set j b') := by
  constructor
  · unfold idsDistinct
    rw [map_id_set_set l i j hi hj a' b' hida hidb]
    exact hids
  · intro k1 k2 hk1 hk2
    have hk1l : k1 < l.length := by simpa using hk1
    have hk2l : k2 < l.length := by simpa using hk2
    rw [get_set_set l i j a' b' k1 hk1l hk1, get_set_set l i j a' b' k2 hk2l hk2]
    by_cases h1j : k1 = j
    · subst h1j
      rw [if_pos rfl]
      by_cases h2j : k2 = k1
      · subst h2j
        rw [if_pos rfl]
      · rw [if_neg h2j]
        by_cases h2i : k2 = i
        · subst h2i
          rw [if_pos rfl, hida, hidb]
          exact hcross.symm
        · rw [if_neg h2i]
          have hCi : (l.get ⟨k2, hk2l⟩).id ≠ (l.get ⟨i, hi⟩).id :=
            idsDistinct_ne l hids k2 i hk2l hi h2i
          rw [hidb, hcb _ hCi]
          exact hsym k1 k2 hk1l hk2l
    · rw [if_neg h1j]
      by_cases h1i : k1 = i
      · subst h1i
        rw [if_pos rfl]
        by_cases h2j : k2 = j
        · subst h2j
          rw [if_pos rfl, hida, hidb]
          exact hcross
        · rw [if_neg h2j]
          by_cases h2i : k2 = k1
          · subst h2i
            rw [if_pos rfl]
          · rw [if_neg h2i]
            have hCj : (l.get ⟨k2, hk2l⟩).id ≠ (l.get ⟨j, hj⟩).id :=
              idsDistinct_ne l hids k2 j hk2l hj h2j
            rw [hida, hca _ hCj]
            exact hsym k1 k2 hk1l hk2l
      · rw [if_neg h1i]
        by_cases h2j : k2 = j
        · subst h2j
          rw [if_pos rfl]
          have hCi : (l.get ⟨k1, hk1l⟩).id ≠ (l.get ⟨i, hi⟩).id :=
            idsDistinct_ne l hids k1 i hk1l hi h1i
          rw [hidb, hcb _ hCi]
          exact hsym k1 k2 hk1l hk2l
        · rw [if_neg h2j]
          by_cases h2i : k2 = i
          · subst h2i
            rw [if_pos rfl]
            have hCj : (l.get ⟨k1, hk1l⟩).id ≠ (l.get ⟨j, hj⟩).id :=
              idsDistinct_ne l hids k1 j hk1l hj h1j
            rw [hida, hca _ hCj]
            exact hsym k1 k2 hk1l hk2l
          · rw [if_neg h2i]
            exact hsym k1 k2 hk1l hk2l

theorem applyBorderOp_preserves (l : List (Camera ℝ)) (op : BorderOp)
    (hids : idsDistinct l) (hsym : borderCountSym l) :
    idsDistinct (applyBorderOp l op) ∧ borderCountSym (applyBorderOp l op) := by
  cases op with
  | add i j =>
    simp only [applyBorderOp]
    by_cases hb : i < l.length ∧ j < l.length ∧ i ≠ j
    · rw [dif_pos hb]
      rcases mutually_add_spec (l.get ⟨i, hb.1⟩) (l.get ⟨j, hb.2.1⟩) with
        ⟨hr, heq⟩ | ⟨hr, heq⟩
      · simp only [heq]
        refine count_sym_set_set l i j hb.1 hb.2.1 hb.2.2 _ _ rfl rfl ?_ ?_ ?_
          hids hsym
        · intro y hy
          rw [count_append_single, if_neg (fun he => hy he.symm), Nat.add_zero]
        · intro y hy
          rw [count_append_single, if_neg (fun he => hy he.symm), Nat.add_zero]
        · rw [count_append_single, count_append_single, if_pos rfl, if_pos rfl,
            hsym i j hb.1 hb.2.1]
      · simp only [heq]
        rw [list_set_get_self l i hb.1, list_set_get_self l j hb.2.1]
        exact ⟨hids, hsym⟩
    · rw [dif_neg hb]
      exact ⟨hids, hsym⟩
  | rem i j =>
    simp only [applyBorderOp]
    by_cases hb : i < l.length ∧ j < l.length ∧ i ≠ j
    · rw [dif_pos hb]
      refine count_sym_set_set l i j hb.1 hb.2.1 hb.2.2 _ _ rfl rfl ?_ ?_ ?_
        hids hsym
      · intro y hy
        simp only [Camera.remove_from_list_if_bordering]
        rw [count_erase_nat, if_neg (fun he => hy he.symm), Nat.sub_zero]
      · intro y hy
        simp only [Camera.remove_from_list_if_bordering]
        rw [count_erase_nat, if_neg (fun he => hy he.symm), Nat.sub_zero]
      · simp only [Camera.remove_from_list_if_bordering]
        rw [count_erase_nat, count_erase_nat, if_pos rfl, if_pos rfl,
          hsym i j hb.1 hb.2.1]
    · rw [dif_neg hb]
      exact ⟨hids, hsym⟩

theorem applyBorderOps_preserves (ops : List BorderOp) (l : List (Camera ℝ))
    (hids : idsDistinct l) (hsym : borderCountSym l) :
    idsDistinct (applyBorderOps l ops) ∧ borderCountSym (applyBorderOps l ops) := by
  induction ops generalizing l with
  | nil => exact ⟨hids, hsym⟩
  | cons op t ih =>
    have h1 := applyBorderOp_preserves l op hids hsym
    exact ih (applyBorderOp l op) h1.1 h1.2

/-- C6: a single `mutually_add_if_bordering(a, b)` call adds `b`'s id to
`a`'s border list iff it adds `a`'s id to `b`'s (both happen together),
and it does so exactly when the Euclidean distance between the positions
is ≤ 5.0/1e7; consequently, starting from cameras with pairwise distinct
ids and empty border lists, any run of startup pair additions and pairwise
removals keeps border membership symmetric:
`b ∈ cams[a].border ⇔ a ∈ cams[b].border`. -/
theorem bordering_symmetry :
    (∀ a b : Camera ℝ,
      (inRangeCam a b ↔
        Real.sqrt ((a.latitude - b.latitude) ^ 2 +
            (a.longitude - b.longitude) ^ 2) ≤ 5 / 10000000) ∧
      (inRangeCam a b → Camera.mutually_add_if_bordering a b =
        ({ a with border_cameras := a.border_cameras ++ [b.id] },
         { b with border_cameras := b.border_cameras ++ [a.id] })) ∧
      (¬ inRangeCam a b → Camera.mutually_add_if_bordering a b = (a, b))) ∧
    ∀ (cams : List (Camera ℝ)) (ops : List BorderOp),
      idsDistinct cams → (∀ c ∈ cams, c.border_cameras = []) →
      ∀ a ∈ applyBorderOps cams ops, ∀ b ∈ applyBorderOps cams ops,
        (b.id ∈ a.border_cameras ↔ a.id ∈ b.border_cameras) := by
  constructor
  · intro a b
    refine ⟨Iff.rfl, ?_, ?_⟩
    · intro h
      rcases mutually_add_spec a b with ⟨-, heq⟩ | ⟨hn, -⟩
      · exact heq
      · exact absurd h hn
    · intro h
      rcases mutually_add_spec a b with ⟨hr, -⟩ | ⟨-, heq⟩
      · exact absurd hr h
      · exact heq
  · intro cams ops hids hempty a ha b hb
    have hsym0 : borderCountSym cams := by
      intro i j hi hj
      rw [hempty _ (List.get_mem cams i hi), hempty _ (List.get_mem cams j hj)]
      simp
    obtain ⟨-, hsym⟩ := applyBorderOps_preserves ops cams hids hsym0
    obtain ⟨⟨ia, hia⟩, hna⟩ := List.mem_iff_get.mp ha
    obtain ⟨⟨ib, hib⟩, hnb⟩ := List.mem_iff_get.mp hb
    have hc := hsym ia ib hia hib
    rw [hna, hnb] at hc
    constructor
    · intro hmem
      by_contra hnot
      have h0 : b.border_cameras.count a.id = 0 := List.count_eq_zero.mpr hnot
      exact (List.count_eq_zero.mp (hc.trans h0)) hmem
    · intro hmem
      by_contra hnot
      have h0 : a.border_cameras.count b.id = 0 := List.count_eq_zero.mpr hnot
      exact (List.count_eq_zero.mp (hc.symm.trans h0)) hmem

/-- Two concrete cameras at the same position with distinct ids. -/
def camsEx : List (Camera ℝ) := [Camera.new 1 0 0 5, Camera.new 2 0 0 5]

/-- C6 witness: the symmetry conclusion instantiated on two concrete
cameras after one startup addition step. -/
theorem bordering_symmetry_witness :
    (idsDistinct camsEx ∧ (∀ c ∈ camsEx, c.border_cameras = [])) ∧
    ∀ a ∈ applyBorderOps camsEx [BorderOp.add 0 1],
      ∀ b ∈ applyBorderOps camsEx [BorderOp.add 0 1],
        (b.id ∈ a.border_cameras ↔ a.id ∈ b.border_cameras) :=
  ⟨⟨by decide, by decide⟩,
    bordering_symmetry.2 camsEx [BorderOp.add 0 1] (by decide) (by decide)⟩

/-- C8: `will_register` holds exactly when the Euclidean distance from the
camera to the incident position is at most `range / 1e7`; equivalently,
comparing squares, when
`(c.lat − lat)² + (c.lon − lon)² ≤ (range/1e7)²`. -/
theorem will_register_iff_distance (c : Camera ℝ) (lat lon : ℝ) :
    (c.will_register (lat, lon) ↔
      Real.sqrt ((c.latitude - lat) ^ 2 + (c.longitude - lon) ^ 2) ≤
        (c.range : ℝ) / 10000000) ∧
    (c.will_register (lat, lon) ↔
      (c.latitude - lat) ^ 2 + (c.longitude - lon) ^ 2 ≤
        ((c.range : ℝ) / 10000000) ^ 2) := by
  constructor
  · exact Iff.rfl
  · unfold Camera.will_register Camera.is_within_range_from_self
    constructor
    · intro h
      have h2 := pow_le_pow_left (Real.sqrt_nonneg _) h 2
      rwa [Real.sq_sqrt (by positivity)] at h2
    · intro h
      have h2 : Real.sqrt ((c.latitude - lat) ^ 2 + (c.longitude - lon) ^ 2) ≤
          Real.sqrt (((c.range : ℝ) / 10000000) ^ 2) := Real.sqrt_le_sqrt h
      rwa [Real.sqrt_sq (by positivity)] at h2
